import Mathlib

/-!
Shallow embedding of the "Agentic Coach" productivity/health dashboard
(`src/app/api/ai/route.ts` and the client page component), together with
theorems checking the natural-language specification against it.

Modelling conventions:
* JavaScript strings are Lean `String`s (or `List Char` for the markdown
  renderer, where character-level reasoning is needed).
* JavaScript numbers appearing in task records are modelled as `Int`
  (the program only ever produces and consumes integral values there);
  health fields arrive from unvalidated JSON, so they are modelled as
  optional `JsVal` JSON values and run through the `Number(...)`
  coercion, with `none : Option Int` standing for `NaN`.  The string
  domain of the `Number` coercion is restricted to integer literals
  (with surrounding whitespace), which covers every value the claims
  exercise.
* `x ?? d` is `jsCoalesce`, JS string truthiness is `jsTruthyStr`.
* `Array.prototype.sort` with comparator `(a, b) => g(b) - g(a)` is
  stable (ECMAScript 2019) and sorts descending by `g`; it is modelled
  by `sortByDesc g`, a stable descending insertion sort
  (`List.insertionSort` with the relation `g b ≤ g a`).  Sortedness,
  permutation and stability lemmas below justify that this is the
  unique function matching the JS semantics.
-/

/-- JSON scalar values, as received by the route after `req.json()`.
Numbers are restricted to integers (see the module docstring). -/
inductive JsVal where
  | num (n : Int)
  | str (s : String)
  | bool (b : Bool)
  | null
deriving DecidableEq, Repr

/-- `v ?? d` for an optional field `v`: `undefined` (here `none`) and
`null` are replaced by the default. -/
def jsCoalesce (v : Option JsVal) (d : JsVal) : JsVal :=
  match v with
  | none => d
  | some JsVal.null => d
  | some w => w

/-- Strip leading and trailing whitespace from a character list
(the model of JS whitespace trimming in `Number(...)` and `trim()`). -/
def trimC (l : List Char) : List Char :=
  ((l.dropWhile Char.isWhitespace).reverse.dropWhile Char.isWhitespace).reverse

/-- `trim()` on a string, via `trimC`. -/
def jsTrim (s : String) : String :=
  String.mk (trimC s.data)

/-- Accumulate a decimal digit string; `none` on a non-digit. -/
def digitsToNat (acc : Nat) : List Char → Option Nat
  | [] => some acc
  | c :: l => if c.isDigit then digitsToNat (acc * 10 + (c.toNat - 48)) l else none

/-- Parse an optionally signed decimal integer, `none` otherwise: the
(integer-valued) fragment of JS numeric string parsing. -/
def parseIntC : List Char → Option Int
  | [] => none
  | '-' :: l => if l = [] then none else (digitsToNat 0 l).map (fun n => -(n : Int))
  | '+' :: l => if l = [] then none else (digitsToNat 0 l).map (fun n => (n : Int))
  | l => (digitsToNat 0 l).map (fun n => (n : Int))

/-- JS `Number(...)` on our JSON values; `none` is `NaN`.
`Number("")` and `Number` of whitespace-only strings are `0`;
a non-numeric string is `NaN`. -/
def jsNumber : JsVal → Option Int
  | JsVal.num n => some n
  | JsVal.str s => if trimC s.data = [] then some 0 else parseIntC (trimC s.data)
  | JsVal.bool b => some (if b then 1 else 0)
  | JsVal.null => some 0

/-- JS `String(...)` on our JSON values. -/
def jsString : JsVal → String
  | JsVal.num n => toString n
  | JsVal.str s => s
  | JsVal.bool b => if b then "true" else "false"
  | JsVal.null => "null"

/-- `Number(field ?? 0)`, the numeric-coercion idiom used at
route.ts lines 80-84 and 115-118. -/
def coerceNum (v : Option JsVal) : Option Int :=
  jsNumber (jsCoalesce v (JsVal.num 0))

/-- `String(health.mood ?? "unknown")` (route.ts line 85). -/
def coerceMood (v : Option JsVal) : String :=
  jsString (jsCoalesce v (JsVal.str "unknown"))

/-- Truthiness of an optional JS string: `undefined` and `""` are falsy. -/
def jsTruthyStr (v : Option String) : Bool :=
  match v with
  | none => false
  | some s => !(s == "")

/-- `x < c` where `x` may be `NaN` (`none`): any comparison with `NaN`
is false in JS. -/
def jsLt (x : Option Int) (c : Int) : Bool :=
  match x with
  | none => false
  | some n => n < c

/-- Template-literal rendering of a possibly-`NaN` number. -/
def jsNumToString (x : Option Int) : String :=
  match x with
  | none => "NaN"
  | some n => toString n

/-- A task as the POST handler casts it from the request body
(route.ts lines 8-14): `done` is used only through truthiness, so the
optional boolean collapses to a `Bool`. -/
structure STask where
  title : String
  effort : Int
  impact : Int
  due : Option String := none
  done : Bool := false
deriving DecidableEq, Repr

/-- The health record as the POST handler casts it (route.ts 15-21):
every field may be absent or hold arbitrary JSON. -/
structure Health where
  sleepHours : Option JsVal := none
  waterCups : Option JsVal := none
  steps : Option JsVal := none
  breaksPerHour : Option JsVal := none
  mood : Option JsVal := none
deriving DecidableEq, Repr

/-- The object returned by `buildFallbackSuggestions` (route.ts 149). -/
structure SuggestionBundle where
  plan : String
  habits : List String
  quickWins : List String
  top : List String
deriving DecidableEq, Repr

/-- Descending-by-key relation used to model
`sort((a, b) => g(b) - g(a))`. -/
def keyGE (g : α → Int) (a b : α) : Prop := g b ≤ g a

instance (g : α → Int) : DecidableRel (keyGE g) :=
  fun a b => inferInstanceAs (Decidable (g b ≤ g a))

instance (g : α → Int) : IsTotal α (keyGE g) :=
  ⟨fun a b => (le_total (g b) (g a)).imp id id⟩

instance (g : α → Int) : IsTrans α (keyGE g) :=
  ⟨fun _ _ _ hab hbc => le_trans hbc hab⟩

/-- Stable descending sort by an integer key: the model of JS
`Array.prototype.sort` with comparator `(a, b) => g(b) - g(a)`. -/
def sortByDesc (g : α → Int) (l : List α) : List α :=
  l.insertionSort (keyGE g)

/-- The score the fallback generator actually sorts by
(route.ts line 112): `impact * 2 - effort`, with no due-date term. -/
def score2 (t : STask) : Int := t.impact * 2 - t.effort

/-- The formatting of a "top priority" line (route.ts line 113; the
source file is plain ASCII and contains a literal `?` here). -/
def fmtTop (t : STask) : String :=
  t.title ++ " ? do soon (impact " ++ toString t.impact ++ ", effort " ++
    toString t.effort ++ ")"

/-- `buildFallbackSuggestions` (route.ts lines 106-150). -/
def buildFallbackSuggestions (tasks : List STask) (health : Health)
    (note : Option String := none) : SuggestionBundle :=
  let incomplete := tasks.filter (fun t => !t.done)
  let prioritized := sortByDesc score2 incomplete
  let top := (prioritized.take 5).map fmtTop
  let sleep := coerceNum health.sleepHours
  let water := coerceNum health.waterCups
  let steps := coerceNum health.steps
  let breaks := coerceNum health.breaksPerHour
  let habits : List String :=
    [ if jsLt sleep 7 then "Aim for 7?9h tonight; set a fixed shutdown time."
      else "Protect your sleep window; no screens 1h before bed.",
      if jsLt water 8 then "Place a full bottle on desk; 2 cups by 10am, 4 by 2pm."
      else "Maintain hydration cadence: 1 cup per hour during work.",
      if jsLt steps 8000 then "Insert two 10-min walks (midday and late afternoon) to hit 8?10k steps."
      else "Keep step streak with a brisk 20-min walk post-lunch.",
      if jsLt breaks 2 then "Use 50/10 focus cycles; micro-stretch each break."
      else "Sustain 50/10 cadence; add 2x mobility breaks (AM/PM)." ]
  let lowEffort := (incomplete.filter (fun t => t.effort ≤ 2)).take 5
  let quickWins0 := lowEffort.map (fun t => "Start: " ++ t.title ++ " (<=10m setup)")
  let quickWins :=
    quickWins0 ++ List.replicate (5 - quickWins0.length) "Inbox sweep: archive or assign 10 emails."
  let plan := String.intercalate "\n"
    [ "09:00?11:00 Deep Work: top priority",
      "11:00?11:10 Break + hydration",
      "11:10?12:30 Deep Work: priority #2",
      "12:30?13:15 Lunch + 10-min walk",
      "13:15?15:00 Execution: small tasks",
      "15:00?15:10 Break + mobility",
      "15:10?16:30 Execution: priority #3",
      "16:30?17:00 Wrap-up & plan tomorrow" ]
  let habits2 := if jsTruthyStr note then ("(Note) " ++ note.getD "") :: habits else habits
  { plan := plan, habits := habits2, quickWins := quickWins, top := top }

/-- One numbered task line of the prompt (route.ts lines 74-77). -/
def fmtTaskLine (i : Nat) (t : STask) : String :=
  toString (i + 1) ++ ". " ++ t.title ++ " (impact " ++ toString t.impact ++
    "/5, effort " ++ toString t.effort ++ "/5" ++
    (if jsTruthyStr t.due then ", due " ++ t.due.getD "" else "") ++
    (if t.done then ", marked done" else "") ++ ")"

/-- `map` carrying the element index, as JS `.map((t, i) => ...)`. -/
def mapIdxFrom (f : Nat → α → β) : Nat → List α → List β
  | _, [] => []
  | i, a :: l => f i a :: mapIdxFrom f (i + 1) l

/-- The `taskLines` value of `buildPrompt` (route.ts lines 72-78):
only the first 30 tasks, in insertion order. -/
def promptTaskLines (tasks : List STask) : String :=
  String.intercalate "\n" (mapIdxFrom fmtTaskLine 0 (tasks.take 30))

/-- `buildPrompt` (route.ts lines 71-104).  `taskLines || "(none)"` is
the string-truthiness default. -/
def buildPrompt (tasks : List STask) (health : Health) : String :=
  let taskLines := promptTaskLines tasks
  let sleep := coerceNum health.sleepHours
  let water := coerceNum health.waterCups
  let steps := coerceNum health.steps
  let breaks := coerceNum health.breaksPerHour
  let mood := coerceMood health.mood
  String.intercalate "\n"
    [ "Here are my current tasks and health metrics.",
      "",
      "Tasks:",
      (if taskLines = "" then "(none)" else taskLines),
      "",
      "Health:",
      "Sleep: " ++ jsNumToString sleep ++ "h, Water: " ++ jsNumToString water ++
        " cups, Steps: " ++ jsNumToString steps ++ ", Breaks/hour: " ++
        jsNumToString breaks ++ ", Mood: " ++ mood,
      "",
      "Please produce:",
      "1) A short day plan (time-boxed blocks).",
      "2) Top 5 task priorities with justifications (impact/effort/urgency).",
      "3) 5 habit tweaks that support today's workload (sleep, hydration, steps, breaks).",
      "4) 5 quick wins I can do in 10 minutes or less.",
      "Use markdown with headings and bullet lists. Be concrete, no fluff." ]

/-- Outcome of the single upstream `fetch` once a credential is present:
a success body, a non-success status with its body text, or a thrown
network error. -/
inductive UpstreamOutcome where
  | ok (content : String)
  | failure (text : String)
  | threw (msg : String)
deriving DecidableEq, Repr

/-- The response bodies the POST handler can produce. -/
inductive ApiResponse where
  | fallback (suggestions : SuggestionBundle)
  | openai (content : String)
  | error (msg : String)
deriving DecidableEq, Repr

/-- `(body?.tasks ?? []) as Array<...>` (route.ts line 8): the handler
accepts the task array verbatim, with no validation or clamping. -/
def postExtractTasks (bodyTasks : Option (List STask)) : List STask :=
  bodyTasks.getD []

/-- The POST handler (route.ts lines 5-69) after body extraction:
`if (!apiKey)` is string truthiness; a non-ok upstream status falls
back with the note `"AI error: " ++ text`; a thrown fetch is caught by
the outer try/catch and becomes an error response. -/
def handlePost (tasks : List STask) (health : Health) (apiKey : Option String)
    (upstream : UpstreamOutcome) : ApiResponse :=
  if jsTruthyStr apiKey then
    match upstream with
    | UpstreamOutcome.ok content => ApiResponse.openai content
    | UpstreamOutcome.failure text =>
        ApiResponse.fallback (buildFallbackSuggestions tasks health (some ("AI error: " ++ text)))
    | UpstreamOutcome.threw msg => ApiResponse.error msg
  else
    ApiResponse.fallback (buildFallbackSuggestions tasks health none)

/-- A task as the client page stores it (part_000 lines 5-12). -/
structure CTask where
  id : String
  title : String
  effort : Int
  impact : Int
  due : Option String := none
  done : Bool := false
deriving DecidableEq, Repr

/-- The client priority score (part_000 lines 43-44):
`impact * 2 - effort + (due ? 1 : 0)`. -/
def score (t : CTask) : Int :=
  t.impact * 2 - t.effort + (if jsTruthyStr t.due then 1 else 0)

/-- The `prioritized` memo (part_000 lines 41-47): a stable descending
sort of the task list by `score`. -/
def prioritized (tasks : List CTask) : List CTask :=
  sortByDesc score tasks

/-- `addTask` (part_000 lines 49-66): no-op on a blank title, otherwise
appends the new task verbatim; `taskDue || undefined` drops an empty
due string.  `newId` stands for `crypto.randomUUID()`. -/
def addTask (prev : List CTask) (newId taskTitle : String)
    (taskEffort taskImpact : Int) (taskDue : String) : List CTask :=
  if jsTrim taskTitle = "" then prev
  else prev ++
    [{ id := newId, title := jsTrim taskTitle, effort := taskEffort,
       impact := taskImpact, due := if taskDue = "" then none else some taskDue,
       done := false }]

/-! ### Markdown renderer (part_000 lines 257-300)

Strings are `List Char` here so that per-character escaping facts can be
proved by induction.  `lit` injects Lean string literals. -/

/-- String literal as a character list. -/
def lit (s : String) : List Char := s.toList

/-- The double-quote character. -/
def quoteChar : Char := Char.ofNat 34

/-- The apostrophe character. -/
def aposChar : Char := Char.ofNat 39

/-- JS `String.prototype.replaceAll` for a single-character pattern. -/
def replaceAllC (c : Char) (rep : List Char) : List Char → List Char
  | [] => []
  | a :: l => (if a = c then rep else [a]) ++ replaceAllC c rep l

/-- `escapeHtml` (part_000 lines 293-300): the five `replaceAll`
passes, `&` first. -/
def escapeHtml (s : List Char) : List Char :=
  replaceAllC aposChar (lit "&#039;")
    (replaceAllC quoteChar (lit "&quot;")
      (replaceAllC '>' (lit "&gt;")
        (replaceAllC '<' (lit "&lt;")
          (replaceAllC '&' (lit "&amp;") s))))

/-- The per-character escaping table of `escapeHtml`. -/
def escChar (c : Char) : List Char :=
  if c = '&' then lit "&amp;"
  else if c = '<' then lit "&lt;"
  else if c = '>' then lit "&gt;"
  else if c = quoteChar then lit "&quot;"
  else if c = aposChar then lit "&#039;"
  else [c]

/-- Whether a line is rendered as a list item: prefix `"- "`
(part_000 line 266; no header prefix can also start with `'-'`). -/
def isListLine (line : List Char) : Bool :=
  (lit "- ").isPrefixOf line

/-- First pass of the renderer (part_000 lines 262-269): one HTML
fragment per line.  `line.trim() === ""` is the all-whitespace test. -/
def lineFrag (line : List Char) : List Char :=
  if (lit "### ").isPrefixOf line then lit "<h3>" ++ escapeHtml (line.drop 4) ++ lit "</h3>"
  else if (lit "## ").isPrefixOf line then lit "<h2>" ++ escapeHtml (line.drop 3) ++ lit "</h2>"
  else if (lit "# ").isPrefixOf line then lit "<h1>" ++ escapeHtml (line.drop 2) ++ lit "</h1>"
  else if (lit "- ").isPrefixOf line then lit "<li>" ++ escapeHtml (line.drop 2) ++ lit "</li>"
  else if line.all Char.isWhitespace then lit "<br/>"
  else lit "<p>" ++ escapeHtml line ++ lit "</p>"

/-- The `flush` closure (part_000 lines 273-278): wrap a non-empty
buffer of `<li>` fragments into one `<ul>`. -/
def mdFlush (merged buffer : List (List Char)) : List (List Char) :=
  if buffer = [] then merged
  else merged ++ [lit "<ul>" ++ buffer.flatten ++ lit "</ul>"]

/-- One iteration of the merging loop (part_000 lines 279-285). -/
def mdStep (acc : List (List Char) × List (List Char)) (frag : List Char) :
    List (List Char) × List (List Char) :=
  if (lit "<li>").isPrefixOf frag then (acc.1, acc.2 ++ [frag])
  else (mdFlush acc.1 acc.2 ++ [frag], [])

/-- Second pass (part_000 lines 270-286): merge consecutive `<li>`
fragments into `<ul>` elements, with a final flush. -/
def renderFrags (frags : List (List Char)) : List (List Char) :=
  let acc := frags.foldl mdStep ([], [])
  mdFlush acc.1 acc.2

/-- The renderer on a list of lines: fragments, merged, joined. -/
def markdownRender (lines : List (List Char)) : List Char :=
  (renderFrags (lines.map lineFrag)).flatten

/-- `content.split(/\r?\n/)`: split at `\n`, consuming one `\r`
directly before it. -/
def splitLinesJS : List Char → List (List Char)
  | [] => [[]]
  | '\r' :: '\n' :: rest => [] :: splitLinesJS rest
  | '\n' :: rest => [] :: splitLinesJS rest
  | c :: rest =>
    match splitLinesJS rest with
    | [] => [[c]]
    | h :: t => (c :: h) :: t

/-- The full `Markdown` component pipeline (part_000 lines 257-291). -/
def markdownHtml (content : List Char) : List Char :=
  markdownRender (splitLinesJS content)

/-- The spec-side renderer for the list-merging rule, following the
spec's words: each maximal run of consecutive list lines becomes one
enclosing `<ul>` wrapping exactly that run's items; any other line is
rendered on its own. -/
def specRender : List (List Char) → List (List Char)
  | [] => []
  | l :: ls =>
    if isListLine l then
      (lit "<ul>" ++ (((l :: ls).takeWhile isListLine).map lineFrag).flatten ++ lit "</ul>") ::
        specRender ((l :: ls).dropWhile isListLine)
    else
      lineFrag l :: specRender ls
termination_by ls => ls.length
decreasing_by
  · simp only [List.dropWhile, *]
    exact Nat.lt_succ_of_le (List.dropWhile_suffix _).sublist.length_le
  · simp

/-! ### Properties of the stable sort model -/

/-- The stable descending sort is sorted: scores are non-increasing. -/
theorem sortByDesc_sorted (g : α → Int) (l : List α) :
    List.Pairwise (keyGE g) (sortByDesc g l) :=
  List.sorted_insertionSort (keyGE g) l

/-- The stable descending sort is a permutation of its input. -/
theorem sortByDesc_perm (g : α → Int) (l : List α) :
    List.Perm (sortByDesc g l) l :=
  List.perm_insertionSort (keyGE g) l

/-- Inserting `a` into `l` touches only positions of score greater than
`g a`; on any fixed score class the filter is unchanged except for `a`
itself, which lands in front of its class. -/
theorem filter_orderedInsert (g : α → Int) (s : Int) (a : α) :
    ∀ l : List α,
      (List.orderedInsert (keyGE g) a l).filter (fun t => decide (g t = s)) =
        if g a = s then a :: l.filter (fun t => decide (g t = s))
        else l.filter (fun t => decide (g t = s))
  | [] => by
      simp only [List.orderedInsert, List.filter]
      by_cases has : g a = s <;> simp [has]
  | b :: l => by
      rw [List.orderedInsert]
      by_cases hab : keyGE g a b
      · rw [if_pos hab]
        by_cases has : g a = s <;> by_cases hbs : g b = s <;>
          simp [List.filter_cons, has, hbs]
      · rw [if_neg hab]
        have hgt : g a < g b := lt_of_not_le hab
        by_cases has : g a = s
        · have hbs : ¬(g b = s) := by omega
          simp [List.filter_cons, hbs, filter_orderedInsert g s a l, has]
        · by_cases hbs : g b = s <;>
            simp [List.filter_cons, hbs, filter_orderedInsert g s a l, has]

/-- Stability of the sort model: on every score class the sorted list
agrees with the input list, so equal-score elements keep their relative
(insertion) order. -/
theorem sortByDesc_stable (g : α → Int) (s : Int) :
    ∀ l : List α,
      (sortByDesc g l).filter (fun t => decide (g t = s)) =
        l.filter (fun t => decide (g t = s))
  | [] => rfl
  | a :: l => by
      show (List.orderedInsert (keyGE g) a (List.insertionSort (keyGE g) l)).filter _ = _
      rw [filter_orderedInsert g s a (List.insertionSort (keyGE g) l)]
      rw [show List.insertionSort (keyGE g) l = sortByDesc g l from rfl]
      rw [sortByDesc_stable g s l]
      by_cases has : g a = s <;> simp [List.filter_cons, has]

/-! ### Properties of `escapeHtml` -/

/-- `replaceAll` distributes over concatenation. -/
theorem replaceAllC_append (c : Char) (rep : List Char) :
    ∀ x y : List Char, replaceAllC c rep (x ++ y) = replaceAllC c rep x ++ replaceAllC c rep y
  | [], _ => rfl
  | a :: x, y => by
      show (if a = c then rep else [a]) ++ replaceAllC c rep (x ++ y) = _
      rw [replaceAllC_append c rep x y]
      exact (List.append_assoc _ _ _).symm

/-- `escapeHtml` distributes over concatenation. -/
theorem escapeHtml_append (x y : List Char) :
    escapeHtml (x ++ y) = escapeHtml x ++ escapeHtml y := by
  simp only [escapeHtml, replaceAllC_append]

/-- On a single character, the five `replaceAll` passes act exactly as
the escaping table: the replacement strings introduced by earlier
passes are never rewritten by later ones. -/
theorem escapeHtml_single (c : Char) : escapeHtml [c] = escChar c := by
  by_cases h1 : c = '&'
  · subst h1; rfl
  · by_cases h2 : c = '<'
    · subst h2; rfl
    · by_cases h3 : c = '>'
      · subst h3; rfl
      · by_cases h4 : c = quoteChar
        · subst h4; rfl
        · by_cases h5 : c = aposChar
          · subst h5; rfl
          · simp [escapeHtml, replaceAllC, escChar, h1, h2, h3, h4, h5]

/-- `escapeHtml` is exactly the character-wise escaping map: every
character occurrence is escaped exactly once (no double escaping, no
under-escaping). -/
theorem escapeHtml_eq_flatten_map :
    ∀ s : List Char, escapeHtml s = (s.map escChar).flatten
  | [] => rfl
  | c :: s => by
      rw [show c :: s = [c] ++ s from rfl, escapeHtml_append, escapeHtml_single,
        escapeHtml_eq_flatten_map s]
      simp

/-- No escape-table entry contains `<`. -/
theorem lt_not_mem_escChar (c : Char) : '<' ∉ escChar c := by
  by_cases h1 : c = '&'
  · subst h1; decide
  · by_cases h2 : c = '<'
    · subst h2; decide
    · by_cases h3 : c = '>'
      · subst h3; decide
      · by_cases h4 : c = quoteChar
        · subst h4; decide
        · by_cases h5 : c = aposChar
          · subst h5; decide
          · simp only [escChar, h1, h2, h3, h4, h5, if_false]
            intro h
            exact h2 ((List.mem_singleton.mp h).symm)

/-- The escaped output never contains a raw `<`. -/
theorem lt_not_mem_escapeHtml (s : List Char) : '<' ∉ escapeHtml s := by
  rw [escapeHtml_eq_flatten_map]
  intro h
  rcases List.mem_flatten.mp h with ⟨x, hx, hcx⟩
  rcases List.mem_map.mp hx with ⟨c, _, rfl⟩
  exact lt_not_mem_escChar c hcx

/-! ### Properties of the markdown renderer -/

/-- A fragment is buffered as a list item by the merging pass exactly
when its line had the `"- "` prefix: no other branch of `lineFrag`
emits a fragment starting with `"<li>"`. -/
theorem lineFrag_li (line : List Char) :
    (lit "<li>").isPrefixOf (lineFrag line) = isListLine line := by
  unfold lineFrag
  split_ifs with h1 h2 h3 h4 h5
  · obtain ⟨t, rfl⟩ := List.isPrefixOf_iff_prefix.mp h1
    rfl
  · obtain ⟨t, rfl⟩ := List.isPrefixOf_iff_prefix.mp h2
    rfl
  · obtain ⟨t, rfl⟩ := List.isPrefixOf_iff_prefix.mp h3
    rfl
  · have h4' : isListLine line = true := h4
    rw [h4']
    simp [lit, List.isPrefixOf]
  · have h4' : isListLine line = false := Bool.eq_false_iff.mpr h4
    rw [h4']
    rfl
  · have h4' : isListLine line = false := Bool.eq_false_iff.mpr h4
    rw [h4']
    rfl

/-- Flushing commutes with a prefix of already-merged output. -/
theorem mdFlush_append (p m b : List (List Char)) :
    mdFlush (p ++ m) b = p ++ mdFlush m b := by
  unfold mdFlush
  split_ifs with h
  · rfl
  · exact List.append_assoc _ _ _

/-- The merging fold never looks at already-merged output: a prefix of
the merged accumulator passes through unchanged. -/
theorem foldl_mdStep_shift (p : List (List Char)) :
    ∀ (fs m b : List (List Char)),
      fs.foldl mdStep (p ++ m, b) =
        (p ++ (fs.foldl mdStep (m, b)).1, (fs.foldl mdStep (m, b)).2)
  | [], _, _ => rfl
  | f :: fs, m, b => by
      simp only [List.foldl_cons]
      unfold mdStep
      split_ifs with h
      · exact foldl_mdStep_shift p fs m (b ++ [f])
      · simp only [mdFlush_append, List.append_assoc]
        exact foldl_mdStep_shift p fs (mdFlush m b ++ [f]) []

/-- Folding over list-item fragments only extends the buffer. -/
theorem foldl_mdStep_li :
    ∀ (fs m b : List (List Char)),
      (∀ f ∈ fs, (lit "<li>").isPrefixOf f = true) →
      fs.foldl mdStep (m, b) = (m, b ++ fs)
  | [], m, b, _ => by simp
  | f :: fs, m, b, h => by
      have hstep : mdStep (m, b) f = (m, b ++ [f]) := by
        unfold mdStep
        rw [if_pos (h f (List.mem_cons_self f fs))]
      simp only [List.foldl_cons, hstep]
      rw [foldl_mdStep_li fs m (b ++ [f]) (fun x hx => h x (List.mem_cons_of_mem f hx))]
      simp

/-- `renderFrags`, unfolded. -/
theorem renderFrags_eq (frags : List (List Char)) :
    renderFrags frags =
      mdFlush (frags.foldl mdStep ([], [])).1 (frags.foldl mdStep ([], [])).2 :=
  rfl

/-- A leading non-list fragment is emitted on its own and the merge
continues independently. -/
theorem renderFrags_cons_not_li (f : List Char) (fs : List (List Char))
    (h : (lit "<li>").isPrefixOf f = false) :
    renderFrags (f :: fs) = f :: renderFrags fs := by
  rw [renderFrags_eq, renderFrags_eq]
  have hstep : mdStep ([], []) f = ([f], []) := by
    unfold mdStep
    rw [if_neg (by rw [h]; exact Bool.false_ne_true)]
    rfl
  simp only [List.foldl_cons, hstep]
  rw [show ([f] : List (List Char)) = [f] ++ [] from rfl]
  rw [foldl_mdStep_shift [f] fs [] []]
  rw [mdFlush_append]
  rfl

/-- The head of a non-empty `dropWhile` result fails the predicate. -/
theorem dropWhile_head_not (p : α → Bool) :
    ∀ (l : List α) (r : α) (rs : List α), l.dropWhile p = r :: rs → p r = false
  | [], _, _, h => by simp at h
  | a :: l, r, rs, h => by
      by_cases ha : p a = true
      · rw [List.dropWhile_cons_of_pos ha] at h
        exact dropWhile_head_not p l r rs h
      · have ha' : p a = false := Bool.eq_false_iff.mpr ha
        rw [List.dropWhile_cons_of_neg (by rw [ha']; exact Bool.false_ne_true)] at h
        obtain ⟨rfl, rfl⟩ := by exact List.cons.inj h
        exact ha'

/-- A non-empty block of list-item fragments followed by nothing or by
a non-item fragment merges into exactly one enclosing `<ul>`, and the
remainder renders independently. -/
theorem renderFrags_ul_block (runF : List (List Char))
    (hli : ∀ f ∈ runF, (lit "<li>").isPrefixOf f = true) (hne : runF ≠ [])
    (fs : List (List Char))
    (hf : fs = [] ∨ ∃ f fs', fs = f :: fs' ∧ (lit "<li>").isPrefixOf f = false) :
    renderFrags (runF ++ fs) =
      (lit "<ul>" ++ runF.flatten ++ lit "</ul>") :: renderFrags fs := by
  have hul : mdFlush [] runF = [lit "<ul>" ++ runF.flatten ++ lit "</ul>"] := by
    unfold mdFlush
    rw [if_neg hne]
    rfl
  rcases hf with rfl | ⟨f, fs', rfl, hfli⟩
  · rw [List.append_nil, renderFrags_eq]
    rw [foldl_mdStep_li runF [] [] hli]
    simpa using hul
  · have hstep : mdStep ([], runF) f = ([lit "<ul>" ++ runF.flatten ++ lit "</ul>", f], []) := by
      unfold mdStep
      rw [if_neg (by rw [hfli]; exact Bool.false_ne_true)]
      rw [hul]
      rfl
    have hstep0 : mdStep ([], []) f = ([f], []) := by
      unfold mdStep
      rw [if_neg (by rw [hfli]; exact Bool.false_ne_true)]
      rfl
    have hfold : runF.foldl mdStep ([], []) = ([], runF) := by
      rw [foldl_mdStep_li runF [] [] hli]
      simp
    rw [renderFrags_eq, List.foldl_append, hfold]
    rw [List.foldl_cons, hstep]
    rw [show ([lit "<ul>" ++ runF.flatten ++ lit "</ul>", f] : List (List Char))
        = [lit "<ul>" ++ runF.flatten ++ lit "</ul>"] ++ [f] from rfl]
    rw [foldl_mdStep_shift [lit "<ul>" ++ runF.flatten ++ lit "</ul>"] fs' [f] []]
    rw [mdFlush_append]
    rw [renderFrags_eq, List.foldl_cons, hstep0]
    rfl

/-- Auxiliary induction (on a length bound) for the renderer/spec
equivalence. -/
theorem renderAux : ∀ (n : Nat) (lines : List (List Char)), lines.length ≤ n →
    renderFrags (lines.map lineFrag) = specRender lines
  | _, [], _ => by rw [specRender]; rfl
  | 0, l :: ls, h => absurd h (by simp)
  | n + 1, l :: ls, h => by
      by_cases hl : isListLine l = true
      · have hsplit : (l :: ls).takeWhile isListLine ++ (l :: ls).dropWhile isListLine
            = l :: ls := List.takeWhile_append_dropWhile isListLine (l :: ls)
        have hrun_cons : (l :: ls).takeWhile isListLine = l :: ls.takeWhile isListLine :=
          List.takeWhile_cons_of_pos hl
        have hrest_len : ((l :: ls).dropWhile isListLine).length ≤ n := by
          rw [List.dropWhile_cons_of_pos hl]
          exact le_trans (List.dropWhile_suffix _).sublist.length_le
            (Nat.le_of_succ_le_succ h)
        have hrunfrag_li : ∀ f ∈ ((l :: ls).takeWhile isListLine).map lineFrag,
            (lit "<li>").isPrefixOf f = true := by
          intro f hf
          rcases List.mem_map.mp hf with ⟨x, hx, rfl⟩
          rw [lineFrag_li]
          exact List.mem_takeWhile_imp hx
        have hrunfrag_ne : ((l :: ls).takeWhile isListLine).map lineFrag ≠ [] := by
          rw [hrun_cons]
          simp
        have hrestfrag : ((l :: ls).dropWhile isListLine).map lineFrag = [] ∨
            ∃ f fs', ((l :: ls).dropWhile isListLine).map lineFrag = f :: fs' ∧
              (lit "<li>").isPrefixOf f = false := by
          cases hrc : (l :: ls).dropWhile isListLine with
          | nil => exact Or.inl rfl
          | cons r rs =>
            refine Or.inr ⟨lineFrag r, rs.map lineFrag, by simp, ?_⟩
            rw [lineFrag_li]
            exact dropWhile_head_not isListLine (l :: ls) r rs hrc
        have hmap : (l :: ls).map lineFrag
            = ((l :: ls).takeWhile isListLine).map lineFrag ++
              ((l :: ls).dropWhile isListLine).map lineFrag := by
          rw [← List.map_append, hsplit]
        rw [hmap]
        rw [renderFrags_ul_block _ hrunfrag_li hrunfrag_ne _ hrestfrag]
        rw [renderAux n _ hrest_len]
        rw [specRender]
        rw [if_pos hl]
      · have hlen : ls.length ≤ n := Nat.le_of_succ_le_succ h
        have hfrag : (lit "<li>").isPrefixOf (lineFrag l) = false := by
          rw [lineFrag_li]
          exact Bool.eq_false_iff.mpr hl
        rw [List.map_cons, renderFrags_cons_not_li _ _ hfrag, renderAux n ls hlen]
        rw [specRender]
        rw [if_neg (by rw [Bool.eq_false_iff.mpr hl]; exact Bool.false_ne_true)]

/-- The renderer's two-pass list merging equals the spec's
maximal-run grouping, on every list of lines. -/
theorem renderFrags_map_eq_specRender (lines : List (List Char)) :
    renderFrags (lines.map lineFrag) = specRender lines :=
  renderAux lines.length lines (le_refl _)

/-! ### Claim theorems -/

/-- C2: the client's priority score is `2*impact - effort + (1 if due)`,
and `prioritized` is the task list sorted descending by this score with
ties kept in insertion order (stable); on the example tasks A
(impact 5, effort 1, due) and B (impact 1, effort 5, no due) the scores
are 10 and -3 and the order is [A, B]. -/
theorem client_prioritized_spec :
    (∀ t : CTask, score t = 2 * t.impact - t.effort + (if jsTruthyStr t.due then 1 else 0)) ∧
    (∀ tasks : List CTask, List.Pairwise (keyGE score) (prioritized tasks)) ∧
    (∀ tasks : List CTask, List.Perm (prioritized tasks) tasks) ∧
    (∀ (tasks : List CTask) (s : Int),
      (prioritized tasks).filter (fun t => decide (score t = s)) =
        tasks.filter (fun t => decide (score t = s))) ∧
    score ⟨"idA", "A", 1, 5, some "2024-01-01", false⟩ = 10 ∧
    score ⟨"idB", "B", 5, 1, none, false⟩ = -3 ∧
    prioritized [⟨"idA", "A", 1, 5, some "2024-01-01", false⟩,
        ⟨"idB", "B", 5, 1, none, false⟩] =
      [⟨"idA", "A", 1, 5, some "2024-01-01", false⟩,
        ⟨"idB", "B", 5, 1, none, false⟩] := by
  refine ⟨?_, fun tasks => sortByDesc_sorted score tasks,
    fun tasks => sortByDesc_perm score tasks,
    fun tasks s => sortByDesc_stable score s tasks, by decide, by decide, by decide⟩
  intro t
  unfold score
  cases h : jsTruthyStr t.due <;> simp [h] <;> ring

/-- C5: with no credential the handler answers with the fallback
bundle, and a non-success upstream status is converted into the
fallback bundle carrying `"AI error: <text>"` as the note; neither
path produces an error response. -/
theorem handlePost_no_error_fallback :
    (∀ (tasks : List STask) (health : Health) (u : UpstreamOutcome),
      handlePost tasks health none u =
        ApiResponse.fallback (buildFallbackSuggestions tasks health none)) ∧
    (∀ (tasks : List STask) (health : Health) (key text : String), key ≠ "" →
      handlePost tasks health (some key) (UpstreamOutcome.failure text) =
        ApiResponse.fallback
          (buildFallbackSuggestions tasks health (some ("AI error: " ++ text)))) := by
  constructor
  · intro tasks health u
    rfl
  · intro tasks health key text h
    unfold handlePost
    rw [if_pos (by simp [jsTruthyStr, h])]

/-- Witness for C5's theorem at a concrete credential and failure. -/
theorem handlePost_no_error_fallback_witness :
    handlePost [] {} (some "k") (UpstreamOutcome.failure "boom") =
      ApiResponse.fallback
        (buildFallbackSuggestions [] {} (some ("AI error: " ++ "boom"))) :=
  handlePost_no_error_fallback.2 [] {} "k" "boom" (by decide)

/-- C9: the fallback quick wins are always exactly 5 entries — the
incomplete tasks of effort at most 2 (up to 5), formatted, padded with
the generic filler; with no tasks they are 5 copies of the filler and
the top list is empty. -/
theorem fallback_quickwins_spec :
    (∀ (tasks : List STask) (health : Health) (note : Option String),
      (buildFallbackSuggestions tasks health note).quickWins.length = 5) ∧
    (∀ (tasks : List STask) (health : Health) (note : Option String),
      (buildFallbackSuggestions tasks health note).quickWins =
        (((tasks.filter (fun t => !t.done)).filter (fun t => t.effort ≤ 2)).take 5).map
            (fun t => "Start: " ++ t.title ++ " (<=10m setup)") ++
          List.replicate
            (5 - (((tasks.filter (fun t => !t.done)).filter (fun t => t.effort ≤ 2)).take 5).length)
            "Inbox sweep: archive or assign 10 emails.") ∧
    (∀ (health : Health) (note : Option String),
      (buildFallbackSuggestions [] health note).quickWins =
        List.replicate 5 "Inbox sweep: archive or assign 10 emails." ∧
      (buildFallbackSuggestions [] health note).top = []) := by
  refine ⟨?_, ?_, ?_⟩
  · intro tasks health note
    simp only [buildFallbackSuggestions, List.length_append, List.length_map,
      List.length_replicate]
    have hle : (((tasks.filter (fun t => !t.done)).filter (fun t => t.effort ≤ 2)).take 5).length ≤ 5 := by
      simp [List.length_take]
    omega
  · intro tasks health note
    simp [buildFallbackSuggestions]
  · intro health note
    constructor <;> simp [buildFallbackSuggestions, sortByDesc]

/-- C10: the prompt serializes only the first 30 tasks, in insertion
order; tasks past the limit are silently dropped and do not affect the
prompt in any other way. -/
theorem buildPrompt_truncation :
    (∀ (l₁ l₂ : List STask) (health : Health), l₁.take 30 = l₂.take 30 →
      buildPrompt l₁ health = buildPrompt l₂ health) ∧
    (∀ (tasks : List STask) (health : Health),
      buildPrompt tasks health = buildPrompt (tasks.take 30) health) ∧
    (∀ tasks : List STask,
      promptTaskLines tasks =
        String.intercalate "\n" (mapIdxFrom fmtTaskLine 0 (tasks.take 30))) := by
  have key : ∀ (l₁ l₂ : List STask) (health : Health), l₁.take 30 = l₂.take 30 →
      buildPrompt l₁ health = buildPrompt l₂ health := by
    intro l₁ l₂ health h
    unfold buildPrompt promptTaskLines
    rw [h]
  refine ⟨key, ?_, fun tasks => rfl⟩
  intro tasks health
  exact key tasks (tasks.take 30) health (by simp [List.take_take])

/-- Witness for C10's theorem: a 31st task does not change the prompt. -/
theorem buildPrompt_truncation_witness :
    buildPrompt (List.replicate 31 ⟨"t", 1, 1, none, false⟩) {} =
      buildPrompt (List.replicate 30 ⟨"t", 1, 1, none, false⟩) {} :=
  buildPrompt_truncation.1 _ _ {} (by decide)

/-- The §4.1 score applied to a server task, which claim C1 says the
fallback sort uses: `impact*2 - effort + (due ? 1 : 0)`. -/
def scoreDueS (t : STask) : Int :=
  t.impact * 2 - t.effort + (if jsTruthyStr t.due then 1 else 0)

/-- The fallback "top" list exactly as claim C1 words it: filter to
incomplete tasks, sort descending by the §4.1 score (due-date bonus
included), take 5, format with an em dash. -/
def claimTop (tasks : List STask) : List String :=
  ((sortByDesc scoreDueS (tasks.filter (fun t => !t.done))).take 5).map
    (fun t => t.title ++ " — do soon (impact " ++ toString t.impact ++ ", effort " ++
      toString t.effort ++ ")")

/-- The fallback "top" list as amended: the sort key is `score2`
(no due-date bonus) and the separator is the source's literal `?`. -/
def claimTopAmended (tasks : List STask) : List String :=
  ((sortByDesc score2 (tasks.filter (fun t => !t.done))).take 5).map fmtTop

/-- C1 counterexample: two incomplete tasks of equal `impact*2-effort`
where only one has a due date.  The claimed §4.1 score would put the
due-dated task first; the code's sort key ignores the due date, so the
stable sort keeps insertion order, and the separator differs too. -/
theorem fallback_top_claim_counterexample :
    (buildFallbackSuggestions
        [⟨"Y", 1, 2, none, false⟩, ⟨"X", 1, 2, some "2024-01-01", false⟩] {} none).top ≠
      claimTop [⟨"Y", 1, 2, none, false⟩, ⟨"X", 1, 2, some "2024-01-01", false⟩] := by
  decide

/-- C1 amended: the fallback "top" is the incomplete tasks stably
sorted descending by `impact*2 - effort` (no due-date term), first 5,
formatted `"<title> ? do soon (impact <i>, effort <e>)"`; the
underlying order is sorted, a permutation, and stable. -/
theorem fallback_top_amended :
    (∀ (tasks : List STask) (health : Health) (note : Option String),
      (buildFallbackSuggestions tasks health note).top = claimTopAmended tasks) ∧
    (∀ tasks : List STask,
      List.Pairwise (keyGE score2) (sortByDesc score2 (tasks.filter (fun t => !t.done)))) ∧
    (∀ (tasks : List STask) (s : Int),
      (sortByDesc score2 (tasks.filter (fun t => !t.done))).filter
          (fun t => decide (score2 t = s)) =
        (tasks.filter (fun t => !t.done)).filter (fun t => decide (score2 t = s))) := by
  refine ⟨fun tasks health note => rfl, fun tasks => sortByDesc_sorted score2 _,
    fun tasks s => sortByDesc_stable score2 s _⟩

/-- C3 counterexample: a numeric health field holding a non-numeric
string coerces to `NaN`, not to 0, and a present but unrecognized mood
string is passed through, not replaced by `"unknown"`. -/
theorem health_coercion_claim_counterexample :
    coerceNum (some (JsVal.str "abc")) ≠ some 0 ∧
    coerceMood (some (JsVal.str "happy")) ≠ "unknown" := by
  decide

/-- C3 amended: only a missing (or null) numeric field defaults to 0 —
a present number passes through unchanged and a non-numeric string
yields `NaN` — and only a missing (or null) mood defaults to
`"unknown"`; a present mood string is kept as-is.  (The fallback
generator itself is a total Lean function by construction.) -/
theorem health_coercion_amended :
    coerceNum none = some 0 ∧
    coerceNum (some JsVal.null) = some 0 ∧
    (∀ n : Int, coerceNum (some (JsVal.num n)) = some n) ∧
    coerceNum (some (JsVal.str "abc")) = none ∧
    coerceMood none = "unknown" ∧
    coerceMood (some JsVal.null) = "unknown" ∧
    (∀ s : String, coerceMood (some (JsVal.str s)) = s) :=
  ⟨rfl, rfl, fun _ => rfl, by decide, rfl, rfl, fun _ => rfl⟩

/-- C4 counterexample: the POST handler accepts a task with effort 0
and impact 7 unchanged, and the fallback generator processes it as-is
— no clamping to [1,5] happens anywhere. -/
theorem clamp_claim_counterexample :
    postExtractTasks (some [⟨"X", 0, 7, none, false⟩]) = [⟨"X", 0, 7, none, false⟩] ∧
    ¬(1 ≤ (STask.mk "X" 0 7 none false).effort ∧ (STask.mk "X" 0 7 none false).effort ≤ 5) ∧
    (buildFallbackSuggestions [⟨"X", 0, 7, none, false⟩] {} none).top =
      ["X ? do soon (impact 7, effort 0)"] := by
  refine ⟨rfl, by decide, by decide⟩

/-- C4 amended: neither the POST handler nor `addTask` clamps — the
handler accepts the posted tasks verbatim, and `addTask` (whose slider
UI, not its code, limits the values to 1..5) stores the given effort
and impact unchanged. -/
theorem no_clamping (ts : List STask) (prev : List CTask) (idv title : String)
    (e i : Int) (d : String) :
    postExtractTasks (some ts) = ts ∧
    (jsTrim title ≠ "" → addTask prev idv title e i d =
      prev ++ [{ id := idv, title := jsTrim title, effort := e, impact := i,
                 due := if d = "" then none else some d, done := false }]) := by
  constructor
  · rfl
  · intro h
    unfold addTask
    rw [if_neg h]

/-- Witness for C4's amended theorem at concrete out-of-range values. -/
theorem no_clamping_witness :
    postExtractTasks (some [⟨"X", 0, 7, none, false⟩]) = [⟨"X", 0, 7, none, false⟩] ∧
    addTask [] "u1" "T" 9 0 "" =
      [] ++ [{ id := "u1", title := jsTrim "T", effort := 9, impact := 0,
               due := if "" = "" then none else some "", done := false }] :=
  ⟨(no_clamping [⟨"X", 0, 7, none, false⟩] [] "u1" "T" 9 0 "").1,
   (no_clamping [⟨"X", 0, 7, none, false⟩] [] "u1" "T" 9 0 "").2 (by decide)⟩

/-- C8 counterexample: with a supplied but empty note the habit list
has 4 entries, not 5 — the JS truthiness test `if (note)` treats the
empty string as absent. -/
theorem habits_empty_note_counterexample :
    (buildFallbackSuggestions [] {} (some "")).habits.length = 4 ∧
    ¬((buildFallbackSuggestions [] {} (some "")).habits.length = 5) := by
  decide

/-- C8 amended: the habit list is the four threshold-selected lines
(sleep < 7, water < 8, steps < 8000, breaks < 2; below-threshold gives
the actionable phrasing, otherwise the maintenance phrasing), with the
note prepended as `"(Note) <note>"` — and hence length 5 — exactly when
the note is supplied and non-empty. -/
theorem fallback_habits_amended (tasks : List STask) (health : Health)
    (note : Option String) :
    (buildFallbackSuggestions tasks health note).habits =
      (if jsTruthyStr note then [("(Note) " ++ note.getD "")] else []) ++
        [ if jsLt (coerceNum health.sleepHours) 7 then
            "Aim for 7?9h tonight; set a fixed shutdown time."
          else "Protect your sleep window; no screens 1h before bed.",
          if jsLt (coerceNum health.waterCups) 8 then
            "Place a full bottle on desk; 2 cups by 10am, 4 by 2pm."
          else "Maintain hydration cadence: 1 cup per hour during work.",
          if jsLt (coerceNum health.steps) 8000 then
            "Insert two 10-min walks (midday and late afternoon) to hit 8?10k steps."
          else "Keep step streak with a brisk 20-min walk post-lunch.",
          if jsLt (coerceNum health.breaksPerHour) 2 then
            "Use 50/10 focus cycles; micro-stretch each break."
          else "Sustain 50/10 cadence; add 2x mobility breaks (AM/PM)." ] ∧
    (buildFallbackSuggestions tasks health note).habits.length =
      (if jsTruthyStr note then 5 else 4) := by
  constructor
  · cases h : jsTruthyStr note <;> simp [buildFallbackSuggestions, h]
  · cases h : jsTruthyStr note <;> simp [buildFallbackSuggestions, h]

/-- C6: HTML escaping is exactly the per-character table `&`→`&amp;`,
`<`→`&lt;`, `>`→`&gt;`, `"`→`&quot;`, `'`→`&#039;`, applied exactly once
per character occurrence (the flatten-of-map characterization), applied
before wrapping in the tag (heading case shown), and an input
containing `<script>` never appears unescaped — no `<` survives at
all. -/
theorem escapeHtml_spec :
    (∀ s : List Char, escapeHtml s = (s.map escChar).flatten) ∧
    escChar '&' = lit "&amp;" ∧
    escChar '<' = lit "&lt;" ∧
    escChar '>' = lit "&gt;" ∧
    escChar quoteChar = lit "&quot;" ∧
    escChar aposChar = lit "&#039;" ∧
    (∀ c : Char, c ≠ '&' → c ≠ '<' → c ≠ '>' → c ≠ quoteChar → c ≠ aposChar →
      escChar c = [c]) ∧
    (∀ s : List Char, '<' ∉ escapeHtml s) ∧
    (∀ s : List Char, ¬ List.IsInfix (lit "<script>") (escapeHtml s)) ∧
    (∀ s : List Char, lineFrag (lit "# " ++ s) = lit "<h1>" ++ escapeHtml s ++ lit "</h1>") := by
  refine ⟨escapeHtml_eq_flatten_map, by decide, by decide, by decide, by decide, by decide,
    ?_, lt_not_mem_escapeHtml, ?_, ?_⟩
  · intro c h1 h2 h3 h4 h5
    simp [escChar, h1, h2, h3, h4, h5]
  · intro s hinf
    exact lt_not_mem_escapeHtml s (hinf.subset (by decide))
  · intro s
    simp [lineFrag, lit, List.isPrefixOf]

/-- Witness for C6's conditional conjunct at a concrete character. -/
theorem escapeHtml_spec_witness :
    escChar 'z' = ['z'] :=
  escapeHtml_spec.2.2.2.2.2.2.1 'z' (by decide) (by decide) (by decide) (by decide) (by decide)

/-- C7: the renderer equals the spec's maximal-run grouping on all
inputs; in particular a non-empty block of `"- "` lines renders as one
enclosing `<ul>` wrapping exactly its items, and a non-list line
(a blank line included) between two such blocks yields two separate
`<ul>` elements. -/
theorem markdown_list_merging :
    (∀ lines : List (List Char), renderFrags (lines.map lineFrag) = specRender lines) ∧
    (∀ ls : List (List Char), (∀ l ∈ ls, isListLine l = true) → ls ≠ [] →
      renderFrags (ls.map lineFrag) =
        [lit "<ul>" ++ (ls.map lineFrag).flatten ++ lit "</ul>"]) ∧
    (∀ (a : List (List Char)) (b : List Char) (c : List (List Char)),
      (∀ l ∈ a, isListLine l = true) → a ≠ [] →
      (∀ l ∈ c, isListLine l = true) → c ≠ [] → isListLine b = false →
      renderFrags ((a ++ b :: c).map lineFrag) =
        [lit "<ul>" ++ (a.map lineFrag).flatten ++ lit "</ul>", lineFrag b,
         lit "<ul>" ++ (c.map lineFrag).flatten ++ lit "</ul>"]) := by
  have hfragli : ∀ ls : List (List Char), (∀ l ∈ ls, isListLine l = true) →
      ∀ f ∈ ls.map lineFrag, (lit "<li>").isPrefixOf f = true := by
    intro ls hls f hf
    rcases List.mem_map.mp hf with ⟨x, hx, rfl⟩
    rw [lineFrag_li]
    exact hls x hx
  have hblock : ∀ ls : List (List Char), (∀ l ∈ ls, isListLine l = true) → ls ≠ [] →
      renderFrags (ls.map lineFrag) =
        [lit "<ul>" ++ (ls.map lineFrag).flatten ++ lit "</ul>"] := by
    intro ls hls hne
    have := renderFrags_ul_block (ls.map lineFrag) (hfragli ls hls)
      (by simpa using hne) [] (Or.inl rfl)
    simpa using this
  refine ⟨renderFrags_map_eq_specRender, hblock, ?_⟩
  intro a b c ha hane hc hcne hb
  have hbfrag : (lit "<li>").isPrefixOf (lineFrag b) = false := by
    rw [lineFrag_li]
    exact hb
  rw [List.map_append, List.map_cons]
  rw [renderFrags_ul_block (a.map lineFrag) (hfragli a ha) (by simpa using hane)
    (lineFrag b :: c.map lineFrag) (Or.inr ⟨lineFrag b, c.map lineFrag, rfl, hbfrag⟩)]
  rw [renderFrags_cons_not_li _ _ hbfrag]
  rw [hblock c hc hcne]

/-- Witness for C7's theorem: two one-item runs separated by a blank
line produce two separate lists. -/
theorem markdown_list_merging_witness :
    renderFrags (([lit "- a"] ++ (lit "") :: [lit "- b"]).map lineFrag) =
      [lit "<ul>" ++ ([lit "- a"].map lineFrag).flatten ++ lit "</ul>", lineFrag (lit ""),
       lit "<ul>" ++ ([lit "- b"].map lineFrag).flatten ++ lit "</ul>"] :=
  markdown_list_merging.2.2 [lit "- a"] (lit "") [lit "- b"]
    (by decide) (by decide) (by decide) (by decide) (by decide)
